import Mathlib

/-!
Verification of the todo-list store logic from `todo_frontend/src/App.js`
(the `useTodos` hook and its helpers).  Each JavaScript function is embedded
as a pure Lean function; React state updates become explicit state passing
over a `StoreState`, and the persisted JSON layer is modelled as a tree of
JSON values (`JSON.stringify` / `JSON.parse` being the platform bijection
between such trees and strings).
-/

/-- A task record: `{ id, title, completed, createdAt }` from App.js.
`createdAt` is a millisecond timestamp (a JS number, here `Int`). -/
structure Todo where
  id : String
  title : String
  completed : Bool
  createdAt : Int
deriving DecidableEq, Repr

/-- JS `String.prototype.trim`: drop leading and trailing whitespace. -/
def jsTrim (s : String) : String :=
  ⟨((s.data.dropWhile Char.isWhitespace).reverse.dropWhile Char.isWhitespace).reverse⟩

/-- `addTodo` from App.js: trims the title, does nothing when the trimmed
title is empty, otherwise prepends a fresh incomplete task.  The id produced
by `uid()` (built from `Date.now()` and `Math.random()`) and the `Date.now()`
timestamp are passed in as parameters `newId` and `now`. -/
def addTodo (newId : String) (now : Int) (title : String) (todos : List Todo) : List Todo :=
  let trimmed := jsTrim title
  if trimmed = "" then todos
  else { id := newId, title := trimmed, completed := false, createdAt := now } :: todos

/-- `toggleTodo` from App.js: maps over the list, flipping `completed` on the
tasks whose id matches. -/
def toggleTodo (id : String) (todos : List Todo) : List Todo :=
  todos.map fun t => if t.id = id then { t with completed := !t.completed } else t

/-- `deleteTodo` from App.js: keeps the tasks whose id differs. -/
def deleteTodo (id : String) (todos : List Todo) : List Todo :=
  todos.filter fun t => t.id != id

/-- `clearCompleted` from App.js: keeps the tasks that are not completed. -/
def clearCompleted (todos : List Todo) : List Todo :=
  todos.filter fun t => !t.completed

/-- The record returned by the `counts` memo in App.js. -/
structure Counts where
  total : Nat
  active : Nat
  completed : Nat
deriving DecidableEq, Repr

/-- The `counts` memo from App.js: `active` is the number of incomplete
tasks and `completed` is `length - active`. -/
def counts (todos : List Todo) : Counts :=
  let active := (todos.filter fun t => !t.completed).length
  { total := todos.length, active := active, completed := todos.length - active }

/-- The `filtered` memo from App.js: restrict by the current filter string;
any filter other than "active" and "completed" returns the whole list. -/
def filtered (filter : String) (todos : List Todo) : List Todo :=
  if filter = "active" then todos.filter fun t => !t.completed
  else if filter = "completed" then todos.filter fun t => t.completed
  else todos

/-- The state held by `useTodos`: the todo list and the filter string. -/
structure StoreState where
  todos : List Todo
  filter : String
deriving DecidableEq, Repr

/-- One user-initiated store operation.  `addTask` carries the id generated
by `uid()` and the `Date.now()` timestamp observed at that call. -/
inductive Op where
  | addTask (title : String) (newId : String) (now : Int)
  | toggleTask (id : String)
  | deleteTask (id : String)
  | clearCompleted
  | setFilter (v : String)
deriving DecidableEq, Repr

/-- Apply one operation to the store state, exactly as the corresponding
App.js handler updates the React state. -/
def applyOp : Op → StoreState → StoreState
  | .addTask title newId now, s => { s with todos := addTodo newId now title s.todos }
  | .toggleTask id, s => { s with todos := toggleTodo id s.todos }
  | .deleteTask id, s => { s with todos := deleteTodo id s.todos }
  | .clearCompleted, s => { s with todos := clearCompleted s.todos }
  | .setFilter v, s => { s with filter := v }

/-- Run a session: apply a sequence of operations in order. -/
def run (ops : List Op) (s : StoreState) : StoreState :=
  ops.foldl (fun st op => applyOp op st) s

/-- The ids present in a todo list. -/
def ids (todos : List Todo) : List String :=
  todos.map Todo.id

/-- The ids generated by `uid()` over a session: one per `addTask` call. -/
def addIds : List Op → List String
  | [] => []
  | .addTask _ newId _ :: rest => newId :: addIds rest
  | _ :: rest => addIds rest

/-- A JSON value, the shape produced by `JSON.parse` / consumed by
`JSON.stringify` (the string layer is the platform bijection with
such trees). -/
inductive Json where
  | null
  | bool (b : Bool)
  | num (n : Int)
  | str (s : String)
  | arr (elems : List Json)
  | obj (fields : List (String × Json))
deriving Repr

/-- The JSON value `JSON.stringify` serializes one task to
(spec section 6, Key A record shape). -/
def encodeTodo (t : Todo) : Json :=
  .obj [("id", .str t.id), ("title", .str t.title),
        ("completed", .bool t.completed), ("createdAt", .num t.createdAt)]

/-- The JSON value `JSON.stringify` serializes the todo list to. -/
def encodeTodos (todos : List Todo) : Json :=
  .arr (todos.map encodeTodo)

/-- First field with the given key in a parsed JSON object. -/
def getField : List (String × Json) → String → Option Json
  | [], _ => none
  | (k, v) :: rest, key => if k = key then some v else getField rest key

/-- Read one task record back from its parsed JSON value, the way the app
consumes the fields `id`, `title`, `completed`, `createdAt` of a stored
object. -/
def decodeTodo : Json → Option Todo
  | .obj fields =>
    match getField fields "id", getField fields "title",
          getField fields "completed", getField fields "createdAt" with
    | some (.str i), some (.str ti), some (.bool c), some (.num n) =>
        some { id := i, title := ti, completed := c, createdAt := n }
    | _, _, _, _ => none
  | _ => none

/-- Read a list of task records back from a parsed JSON array, in order. -/
def decodeTodoList : List Json → Option (List Todo)
  | [] => some []
  | j :: rest =>
    match decodeTodo j, decodeTodoList rest with
    | some t, some ts => some (t :: ts)
    | _, _ => none

/-- Deserialize a persisted JSON value into the todo list it represents. -/
def decodeTodos : Json → Option (List Todo)
  | .arr elems => decodeTodoList elems
  | _ => none

/-- `loadStorage` from App.js: `raw` is what `localStorage.getItem` returned
(`none` for absent), `jsonParse` models the platform `JSON.parse` returning
`none` where it would throw; absent or falsy raw and parse failures all fall
back to `fallback`. -/
def loadStorage (jsonParse : String → Option Json) (raw : Option String)
    (fallback : Json) : Json :=
  match raw with
  | none => fallback
  | some s =>
    if s = "" then fallback
    else
      match jsonParse s with
      | some v => v
      | none => fallback

/-- The initial todo-list state of `useTodos`: stored list or `[]`. -/
def initTodosJson (jsonParse : String → Option Json) (raw : Option String) : Json :=
  loadStorage jsonParse raw (Json.arr [])

/-- The initial filter state of `useTodos`: stored filter or `"all"`. -/
def initFilterJson (jsonParse : String → Option Json) (raw : Option String) : Json :=
  loadStorage jsonParse raw (Json.str "all")

/-- Claim C1: `addTask` trims the title; an empty trimmed title is a silent
no-op, otherwise exactly the new task (trimmed title, incomplete, the fresh
id) is prepended and the previous tasks are unchanged and in order. -/
theorem addTodo_trims_and_prepends (newId : String) (now : Int) (title : String)
    (todos : List Todo) :
    (jsTrim title = "" → addTodo newId now title todos = todos) ∧
    (jsTrim title ≠ "" → addTodo newId now title todos =
      { id := newId, title := jsTrim title, completed := false,
        createdAt := now } :: todos) := by
  constructor <;> intro h <;> simp [addTodo, h]

/-- Instantiation of C1 on the spec examples `"  Buy milk  "` and `"   "`. -/
theorem addTodo_trims_and_prepends_witness :
    addTodo "id1" 0 "  Buy milk  " [] =
      [{ id := "id1", title := "Buy milk", completed := false, createdAt := 0 }] ∧
    addTodo "id2" 0 "   " [] = [] :=
  ⟨((addTodo_trims_and_prepends "id1" 0 "  Buy milk  " []).2 (by decide)).trans
      (by decide),
   (addTodo_trims_and_prepends "id2" 0 "   " []).1 (by decide)⟩

/-- Claim C2: toggling flips `completed` exactly on the matching tasks,
keeps ids, titles, timestamps and order, is involutive, and is a no-op when
no id matches. -/
theorem toggleTodo_flips_only_matching (id : String) (l : List Todo) :
    List.Forall₂ (fun t t' =>
        t'.id = t.id ∧ t'.title = t.title ∧ t'.createdAt = t.createdAt ∧
        (t.id = id → t'.completed = !t.completed) ∧ (t.id ≠ id → t' = t))
      l (toggleTodo id l) ∧
    toggleTodo id (toggleTodo id l) = l ∧
    ((∀ t ∈ l, t.id ≠ id) → toggleTodo id l = l) := by
  refine ⟨?_, ?_, ?_⟩
  · induction l with
    | nil => simp [toggleTodo]
    | cons t rest ih =>
      simp only [toggleTodo, List.map_cons] at ih ⊢
      refine List.Forall₂.cons ?_ ih
      by_cases h : t.id = id <;> simp [h]
  · induction l with
    | nil => rfl
    | cons t rest ih =>
      simp only [toggleTodo, List.map_cons] at ih ⊢
      rw [ih]
      obtain ⟨i, ti, c, ca⟩ := t
      by_cases h : i = id <;> simp [h, Bool.not_not]
  · induction l with
    | nil => intro _; rfl
    | cons t rest ih =>
      intro hno
      have ht : t.id ≠ id := hno t (List.mem_cons_self t rest)
      have hr := ih fun u hu => hno u (List.mem_cons_of_mem t hu)
      simp only [toggleTodo, List.map_cons] at hr ⊢
      rw [hr]
      simp [ht]

/-- Instantiation of C2: toggling an unknown id is a no-op and a double
toggle restores the list. -/
theorem toggleTodo_flips_only_matching_witness :
    toggleTodo "b" [⟨"a", "x", false, 0⟩] = [⟨"a", "x", false, 0⟩] ∧
    toggleTodo "a" (toggleTodo "a" [⟨"a", "x", false, 0⟩]) =
      [⟨"a", "x", false, 0⟩] :=
  ⟨(toggleTodo_flips_only_matching "b" [⟨"a", "x", false, 0⟩]).2.2 (by decide),
   (toggleTodo_flips_only_matching "a" [⟨"a", "x", false, 0⟩]).2.1⟩

/-- Claim C3: `clearCompleted` removes exactly the completed tasks, keeps the
incomplete ones unmodified and in relative order; on `[A(done), B(active)]`
it yields `[B]` with counts `{total 1, active 1, completed 0}`. -/
theorem clearCompleted_removes_exactly_completed (l : List Todo) :
    (∀ t ∈ clearCompleted l, t.completed = false) ∧
    (∀ t ∈ l, t.completed = false → t ∈ clearCompleted l) ∧
    (clearCompleted l).Sublist l ∧
    (∀ A B : Todo, A.completed = true → B.completed = false →
      clearCompleted [A, B] = [B] ∧
      counts (clearCompleted [A, B]) = { total := 1, active := 1, completed := 0 }) := by
  refine ⟨?_, ?_, ?_, ?_⟩
  · intro t ht
    simpa using (List.mem_filter.1 ht).2
  · intro t ht hc
    exact List.mem_filter.2 ⟨ht, by simp [hc]⟩
  · exact List.filter_sublist l
  · intro A B hA hB
    refine ⟨?_, ?_⟩
    · simp [clearCompleted, hA, hB]
    · simp [clearCompleted, counts, hA, hB]

/-- Instantiation of C3 on the spec scenario `[A(done), B(active)]`. -/
theorem clearCompleted_removes_exactly_completed_witness :
    clearCompleted [⟨"1", "a", true, 0⟩, ⟨"2", "b", false, 0⟩] =
      [⟨"2", "b", false, 0⟩] ∧
    counts (clearCompleted [⟨"1", "a", true, 0⟩, ⟨"2", "b", false, 0⟩]) =
      { total := 1, active := 1, completed := 0 } :=
  (clearCompleted_removes_exactly_completed
      [⟨"1", "a", true, 0⟩, ⟨"2", "b", false, 0⟩]).2.2.2
    ⟨"1", "a", true, 0⟩ ⟨"2", "b", false, 0⟩ rfl rfl

/-- The incomplete and completed tasks together account for the whole list. -/
theorem length_filter_not_add (l : List Todo) :
    (l.filter fun t => !t.completed).length
      + (l.filter fun t => t.completed).length = l.length := by
  induction l with
  | nil => rfl
  | cons t rest ih =>
    by_cases h : t.completed <;> simp [List.filter_cons, h] <;> omega

/-- Claim C4: for a list of N tasks of which K are completed, `counts`
returns total N, active N-K, completed K, and active + completed = total.
It is a function of the list alone (a pure query by construction). -/
theorem counts_totals (l : List Todo) :
    counts l = { total := l.length,
                 active := l.length - (l.filter fun t => t.completed).length,
                 completed := (l.filter fun t => t.completed).length } ∧
    (counts l).active + (counts l).completed = (counts l).total ∧
    (counts l).total = l.length := by
  have h := length_filter_not_add l
  refine ⟨?_, ?_, ?_⟩
  · simp only [counts, Counts.mk.injEq]
    refine ⟨by trivial, by omega, by omega⟩
  · simp only [counts]
    omega
  · rfl

/-- Claim C5: `filteredTasks` returns exactly the tasks matching the filter
("all" returns the list itself; "active" the incomplete tasks; "completed"
the completed ones), preserving order; deleting the only task leaves the
empty list, on which every filter returns the empty sequence. -/
theorem filtered_matches_filter (l : List Todo) :
    filtered "all" l = l ∧
    ((filtered "active" l).Sublist l ∧
      (∀ t ∈ filtered "active" l, t.completed = false) ∧
      (∀ t ∈ l, t.completed = false → t ∈ filtered "active" l)) ∧
    ((filtered "completed" l).Sublist l ∧
      (∀ t ∈ filtered "completed" l, t.completed = true) ∧
      (∀ t ∈ l, t.completed = true → t ∈ filtered "completed" l)) ∧
    (∀ t : Todo, deleteTodo t.id [t] = []) ∧
    (∀ f : String, filtered f ([] : List Todo) = []) := by
  have hact : filtered "active" l = l.filter fun t => !t.completed := by
    simp [filtered]
  have hcomp : filtered "completed" l = l.filter fun t => t.completed := by
    simp [filtered]
  refine ⟨by simp [filtered], ⟨?_, ?_, ?_⟩, ⟨?_, ?_, ?_⟩, ?_, ?_⟩
  · rw [hact]; exact List.filter_sublist l
  · intro t ht
    rw [hact] at ht
    simpa using (List.mem_filter.1 ht).2
  · intro t ht hc
    rw [hact]
    exact List.mem_filter.2 ⟨ht, by simp [hc]⟩
  · rw [hcomp]; exact List.filter_sublist l
  · intro t ht
    rw [hcomp] at ht
    simpa using (List.mem_filter.1 ht).2
  · intro t ht hc
    rw [hcomp]
    exact List.mem_filter.2 ⟨ht, by simp [hc]⟩
  · intro t
    simp [deleteTodo]
  · intro f
    simp [filtered]

/-- Instantiation of C5: an incomplete task is in the "active" view, and the
"all" view is the list itself. -/
theorem filtered_matches_filter_witness :
    (⟨"1", "a", false, 0⟩ : Todo) ∈ filtered "active" [⟨"1", "a", false, 0⟩] ∧
    filtered "all" [⟨"1", "a", false, 0⟩] = [⟨"1", "a", false, 0⟩] :=
  ⟨(filtered_matches_filter [⟨"1", "a", false, 0⟩]).2.1.2.2
      ⟨"1", "a", false, 0⟩ (List.mem_cons_self _ _) rfl,
   (filtered_matches_filter [⟨"1", "a", false, 0⟩]).1⟩

/-- Decoding one encoded task record recovers the task. -/
theorem decodeTodo_encodeTodo (t : Todo) : decodeTodo (encodeTodo t) = some t := by
  rfl

/-- Decoding an encoded list of task records recovers the list. -/
theorem decodeTodoList_map_encodeTodo (l : List Todo) :
    decodeTodoList (l.map encodeTodo) = some l := by
  induction l with
  | nil => rfl
  | cons t rest ih =>
    simp [decodeTodoList, decodeTodo_encodeTodo, ih]

/-- Claim C6: deserializing the serialized persisted form of any todo list
recovers an element-wise equal list (same ids, titles, completed flags,
timestamps) in the same order. -/
theorem serialize_roundtrip (l : List Todo) :
    decodeTodos (encodeTodos l) = some l := by
  simp [decodeTodos, encodeTodos, decodeTodoList_map_encodeTodo]

/-- Claim C7: for every storage content (absent, or any string, malformed or
not) the startup read is total and never errors: absence, the empty string
and parse failures fall back to the default (the empty list for the list
key, "all" for the filter key), and a successful parse restores the stored
value. -/
theorem startup_defaults_on_failure (jsonParse : String → Option Json)
    (fallback : Json) :
    loadStorage jsonParse none fallback = fallback ∧
    loadStorage jsonParse (some "") fallback = fallback ∧
    (∀ s : String, s ≠ "" → jsonParse s = none →
      loadStorage jsonParse (some s) fallback = fallback) ∧
    (∀ (s : String) (v : Json), s ≠ "" → jsonParse s = some v →
      loadStorage jsonParse (some s) fallback = v) ∧
    initTodosJson jsonParse none = Json.arr [] ∧
    initFilterJson jsonParse none = Json.str "all" := by
  refine ⟨rfl, rfl, ?_, ?_, rfl, rfl⟩
  · intro s hs hp
    simp [loadStorage, hs, hp]
  · intro s v hs hp
    simp [loadStorage, hs, hp]

/-- Instantiation of C7: corrupt data falls back to the default, intact data
is restored. -/
theorem startup_defaults_on_failure_witness :
    loadStorage (fun _ => none) (some "junk") (Json.arr []) = Json.arr [] ∧
    loadStorage (fun _ => some (Json.str "all")) (some "x") (Json.str "all") =
      Json.str "all" :=
  ⟨(startup_defaults_on_failure (fun _ => none) (Json.arr [])).2.2.1
      "junk" (by decide) rfl,
   (startup_defaults_on_failure (fun _ => some (Json.str "all"))
        (Json.str "all")).2.2.2.1 "x" (Json.str "all") (by decide) rfl⟩

/-- Toggling never changes the ids in the list. -/
theorem ids_toggleTodo (id : String) (l : List Todo) :
    ids (toggleTodo id l) = ids l := by
  simp only [ids, toggleTodo, List.map_map]
  apply List.map_congr_left
  intro t _
  by_cases h : t.id = id <;> simp [h, Function.comp]

/-- Deleting keeps a sub-list of the ids. -/
theorem ids_deleteTodo_sublist (id : String) (l : List Todo) :
    (ids (deleteTodo id l)).Sublist (ids l) :=
  (List.filter_sublist l).map Todo.id

/-- Clearing completed tasks keeps a sub-list of the ids. -/
theorem ids_clearCompleted_sublist (l : List Todo) :
    (ids (clearCompleted l)).Sublist (ids l) :=
  (List.filter_sublist l).map Todo.id

/-- Adding either prepends the fresh id or, on an empty trimmed title,
leaves the ids unchanged. -/
theorem ids_addTodo (newId : String) (now : Int) (title : String) (l : List Todo) :
    ids (addTodo newId now title l) = newId :: ids l ∨
    ids (addTodo newId now title l) = ids l := by
  by_cases h : jsTrim title = ""
  · right
    simp [addTodo, h]
  · left
    simp [addTodo, h, ids]

/-- Claim C8: when the ids `uid()` hands to the `addTask` calls of a session
are fresh (pairwise distinct and distinct from the ids already in the list),
every mutation preserves pairwise distinctness: the list reached by any
sequence of operations has no duplicate id. -/
theorem session_ids_nodup (ops : List Op) (s : StoreState)
    (h : (ids s.todos ++ addIds ops).Nodup) :
    (ids (run ops s).todos).Nodup := by
  induction ops generalizing s with
  | nil => simpa [run, addIds] using h
  | cons op rest ih =>
    show (ids (run rest (applyOp op s)).todos).Nodup
    apply ih
    cases op with
    | addTask title newId now =>
      have h' : (ids s.todos ++ newId :: addIds rest).Nodup := h
      rcases ids_addTodo newId now title s.todos with hid | hid
      · have heq : ids (applyOp (Op.addTask title newId now) s).todos ++ addIds rest
            = newId :: (ids s.todos ++ addIds rest) := by
          show ids (addTodo newId now title s.todos) ++ addIds rest = _
          rw [hid, List.cons_append]
        rw [heq]
        exact List.perm_middle.nodup h'
      · have heq : ids (applyOp (Op.addTask title newId now) s).todos ++ addIds rest
            = ids s.todos ++ addIds rest := by
          show ids (addTodo newId now title s.todos) ++ addIds rest = _
          rw [hid]
        rw [heq]
        exact h'.sublist ((List.sublist_cons_self newId (addIds rest)).append_left _)
    | toggleTask id =>
      have heq : ids (applyOp (Op.toggleTask id) s).todos = ids s.todos :=
        ids_toggleTodo id s.todos
      show (ids (applyOp (Op.toggleTask id) s).todos ++ addIds rest).Nodup
      rw [heq]
      exact h
    | deleteTask id =>
      have h' : (ids s.todos ++ addIds rest).Nodup := h
      exact h'.sublist ((ids_deleteTodo_sublist id s.todos).append_right _)
    | clearCompleted =>
      have h' : (ids s.todos ++ addIds rest).Nodup := h
      exact h'.sublist ((ids_clearCompleted_sublist s.todos).append_right _)
    | setFilter v =>
      exact h

/-- Instantiation of C8: a two-add session with fresh ids ends with
duplicate-free ids. -/
theorem session_ids_nodup_witness :
    (ids (StoreState.mk [] "all").todos
        ++ addIds [Op.addTask "a" "id1" 0, Op.addTask "b" "id2" 1]).Nodup ∧
    (ids (run [Op.addTask "a" "id1" 0, Op.addTask "b" "id2" 1]
        (StoreState.mk [] "all")).todos).Nodup :=
  ⟨by decide,
   session_ids_nodup [Op.addTask "a" "id1" 0, Op.addTask "b" "id2" 1]
     (StoreState.mk [] "all") (by decide)⟩

/-- Claim C9: `setFilter` stores any string without validation, and every
filter value other than "active" and "completed" makes `filteredTasks`
return the whole list in order, exactly as "all" does. -/
theorem filtered_other_values_return_all (f : String) (l : List Todo)
    (s : StoreState) (v : String) :
    (f ≠ "active" → f ≠ "completed" → filtered f l = l) ∧
    (applyOp (Op.setFilter v) s).filter = v := by
  refine ⟨?_, rfl⟩
  intro h1 h2
  simp [filtered, h1, h2]

/-- Instantiation of C9 at a value outside the filter enumeration. -/
theorem filtered_other_values_return_all_witness :
    filtered "bogus" [⟨"1", "a", true, 0⟩] = [⟨"1", "a", true, 0⟩] ∧
    (applyOp (Op.setFilter "bogus") (StoreState.mk [] "all")).filter = "bogus" :=
  ⟨(filtered_other_values_return_all "bogus" [⟨"1", "a", true, 0⟩]
      (StoreState.mk [] "all") "bogus").1 (by decide) (by decide),
   (filtered_other_values_return_all "bogus" [⟨"1", "a", true, 0⟩]
      (StoreState.mk [] "all") "bogus").2⟩

/-- Claim C10: the todo list and the filter are independent: every list
mutation leaves the filter unchanged, `setFilter` leaves the list unchanged,
and the queries `filtered` and `counts` are functions of the state that
produce no state change (pure by construction). -/
theorem mutations_preserve_filter_frame (s : StoreState) (title newId : String)
    (now : Int) (id v : String) :
    (applyOp (Op.addTask title newId now) s).filter = s.filter ∧
    (applyOp (Op.toggleTask id) s).filter = s.filter ∧
    (applyOp (Op.deleteTask id) s).filter = s.filter ∧
    (applyOp Op.clearCompleted s).filter = s.filter ∧
    (applyOp (Op.setFilter v) s).todos = s.todos :=
  ⟨rfl, rfl, rfl, rfl, rfl⟩
